import Mathlib

/-!
Verification of the agent tool-use orchestration core of the eva_bot
repository.  Each component that the checked claims mention is embedded
shallowly: the TypeScript state (in-memory maps, SQLite tables) becomes
explicit Lean data, the stateful methods become functions that take and
return that data, and sources of randomness or I/O (random bytes for
pairing codes, nanoid nonces, the LLM, tool execution) are passed in as
explicit parameters or oracle functions.
-/

namespace EvaBot

/- ────────────────────────── RateLimiter (src/ratelimit.ts) ───────────────── -/

/-- One window entry of the in-memory rate-limit map (`RateLimitEntry`). -/
structure RateLimitEntry where
  count : Nat
  resetAt : Nat
deriving Repr, DecidableEq

/-- The `RateLimiter` object: its configuration and the `limits` map,
modelled as an association list keyed by user id. -/
structure RateLimiter where
  maxRequests : Nat
  windowMs : Nat
  limits : List (String × RateLimitEntry)
deriving Repr, DecidableEq

/-- Result shape of `RateLimiter.check`. -/
structure RateCheckResult where
  allowed : Bool
  retryAfter : Option Nat
deriving Repr, DecidableEq

/-- `Map.get` on the limits association list. -/
def lookupLimit (limits : List (String × RateLimitEntry)) (userId : String) :
    Option RateLimitEntry :=
  (limits.find? (fun p => p.1 = userId)).map (fun p => p.2)

/-- `Map.set`: replace the entry for the key if present, otherwise add it. -/
def setLimit (limits : List (String × RateLimitEntry)) (userId : String)
    (entry : RateLimitEntry) : List (String × RateLimitEntry) :=
  if limits.any (fun p => p.1 = userId) then
    limits.map (fun p => if p.1 = userId then (userId, entry) else p)
  else
    limits ++ [(userId, entry)]

/-- `RateLimiter.check(userId)` at clock value `now`: returns the result and
the updated limiter state.  Mirrors src/ratelimit.ts lines 28–51. -/
def RateLimiter.check (rl : RateLimiter) (userId : String) (now : Nat) :
    RateCheckResult × RateLimiter :=
  match lookupLimit rl.limits userId with
  | none =>
      (⟨true, none⟩,
       { rl with limits := setLimit rl.limits userId ⟨1, now + rl.windowMs⟩ })
  | some entry =>
      if now ≥ entry.resetAt then
        (⟨true, none⟩,
         { rl with limits := setLimit rl.limits userId ⟨1, now + rl.windowMs⟩ })
      else if entry.count < rl.maxRequests then
        (⟨true, none⟩,
         { rl with limits :=
             setLimit rl.limits userId ⟨entry.count + 1, entry.resetAt⟩ })
      else
        (⟨false, some (entry.resetAt - now)⟩, rl)

/-- A limiter with an empty map, as freshly constructed. -/
def RateLimiter.fresh (maxRequests windowMs : Nat) : RateLimiter :=
  ⟨maxRequests, windowMs, []⟩

/-- Run a sequence of checks for one user at the given clock values,
collecting the results. -/
def RateLimiter.checkMany (rl : RateLimiter) (userId : String) :
    List Nat → List RateCheckResult × RateLimiter
  | [] => ([], rl)
  | t :: ts =>
      let step := rl.check userId t
      let rest := step.2.checkMany userId ts
      (step.1 :: rest.1, rest.2)

theorem lookupLimit_append_self (limits : List (String × RateLimitEntry))
    (u : String) (e : RateLimitEntry) (h : ∀ p ∈ limits, ¬ p.1 = u) :
    lookupLimit (limits ++ [(u, e)]) u = some e := by
  unfold lookupLimit
  rw [List.find?_append]
  have hnone : limits.find? (fun p => p.1 = u) = none := by
    rw [List.find?_eq_none]
    intro p hp
    simpa using h p hp
  simp [hnone]

theorem lookupLimit_map_update (limits : List (String × RateLimitEntry))
    (u : String) (e : RateLimitEntry)
    (h : limits.any (fun p => p.1 = u) = true) :
    lookupLimit
      (limits.map (fun p => if p.1 = u then (u, e) else p)) u = some e := by
  induction limits with
  | nil => simp at h
  | cons p l ih =>
      by_cases hp : p.1 = u
      · simp [lookupLimit, hp]
      · have h' : l.any (fun p => p.1 = u) = true := by
          simpa [hp] using h
        simpa [lookupLimit, hp] using ih h'

theorem lookupLimit_setLimit_self (limits : List (String × RateLimitEntry))
    (u : String) (e : RateLimitEntry) :
    lookupLimit (setLimit limits u e) u = some e := by
  unfold setLimit
  by_cases h : limits.any (fun p => p.1 = u) = true
  · simpa [h] using lookupLimit_map_update limits u e h
  · have h' : ∀ p ∈ limits, ¬ p.1 = u := by
      intro p hp
      intro hq
      exact h (List.any_eq_true.mpr ⟨p, hp, by simpa using hq⟩)
    simpa [h] using lookupLimit_append_self limits u e h'

/-- Claim C3: `RateLimiter.check` semantics: a first call (no entry) or a call
after the window's `resetAt` opens a fresh window with count 1 and
`resetAt = now + windowMs` and is allowed; calls inside the window are
allowed while the count is below `maxRequests`; once the count has reached
`maxRequests`, further calls inside the window are denied with
`retryAfter = resetAt - now`, which is at most `windowMs` whenever
`resetAt ≤ now + windowMs` (as holds on any monotone trace); and the
concrete scenario `maxRequests = 2, windowMs = 1000` with checks at times
0, 100, 200 yields allowed, allowed, denied with `retryAfter = 800`. -/
theorem rateLimiter_check_spec (rl : RateLimiter) (userId : String)
    (now N W : Nat) (hN : rl.maxRequests = N) (hW : rl.windowMs = W) :
    (lookupLimit rl.limits userId = none →
      (rl.check userId now).1 = ⟨true, none⟩ ∧
      lookupLimit (rl.check userId now).2.limits userId = some ⟨1, now + W⟩) ∧
    (∀ e, lookupLimit rl.limits userId = some e → e.resetAt ≤ now →
      (rl.check userId now).1 = ⟨true, none⟩ ∧
      lookupLimit (rl.check userId now).2.limits userId = some ⟨1, now + W⟩) ∧
    (∀ e, lookupLimit rl.limits userId = some e → now < e.resetAt →
      e.count < N →
      (rl.check userId now).1 = ⟨true, none⟩ ∧
      lookupLimit (rl.check userId now).2.limits userId =
        some ⟨e.count + 1, e.resetAt⟩) ∧
    (∀ e, lookupLimit rl.limits userId = some e → now < e.resetAt →
      N ≤ e.count →
      (rl.check userId now).1 = ⟨false, some (e.resetAt - now)⟩ ∧
      (e.resetAt ≤ now + W → e.resetAt - now ≤ W)) ∧
    ((RateLimiter.fresh 2 1000).checkMany "u" [0, 100, 200]).1 =
      [⟨true, none⟩, ⟨true, none⟩, ⟨false, some 800⟩] := by
  subst hN hW
  refine ⟨?_, ?_, ?_, ?_, ?_⟩
  · intro h
    simp [RateLimiter.check, h, lookupLimit_setLimit_self]
  · intro e he hle
    simp [RateLimiter.check, he, Nat.le_of_eq rfl, hle,
      lookupLimit_setLimit_self]
  · intro e he hlt hcount
    simp [RateLimiter.check, he, Nat.not_le.mpr hlt, hcount,
      lookupLimit_setLimit_self]
  · intro e he hlt hcount
    refine ⟨?_, fun hb => ?_⟩
    · simp [RateLimiter.check, he, Nat.not_le.mpr hlt, Nat.not_lt.mpr hcount]
    · omega
  · decide

/-- Witness for C3: the theorem applied to the concrete two-per-second
limiter and the scenario at times 0, 100, 200. -/
theorem rateLimiter_check_spec_witness :
    ((RateLimiter.fresh 2 1000).checkMany "u" [0, 100, 200]).1 =
      [⟨true, none⟩, ⟨true, none⟩, ⟨false, some 800⟩] :=
  (rateLimiter_check_spec (RateLimiter.fresh 2 1000) "u" 0 2 1000
    rfl rfl).2.2.2.2

/-- Claim C10: A denied `RateLimiter.check` call is side-effect free: when the
user's window is open (`now < resetAt`) and the count has reached
`maxRequests`, the call returns denied and the limiter state — the whole
`limits` map, hence that user's count and `resetAt` — is returned
unchanged. -/
theorem rateLimiter_denied_frame (rl : RateLimiter) (userId : String)
    (now : Nat) (e : RateLimitEntry)
    (h1 : lookupLimit rl.limits userId = some e)
    (h2 : now < e.resetAt)
    (h3 : rl.maxRequests ≤ e.count) :
    (rl.check userId now).1.allowed = false ∧
    (rl.check userId now).2 = rl := by
  constructor
  · simp [RateLimiter.check, h1, Nat.not_le.mpr h2, Nat.not_lt.mpr h3]
  · simp [RateLimiter.check, h1, Nat.not_le.mpr h2, Nat.not_lt.mpr h3]

/-- Witness for C10: a limiter whose window for `"u"` is full (count 2 of
maxRequests 2, `resetAt = 1000`) denies a check at time 200 and is left
exactly as it was. -/
theorem rateLimiter_denied_frame_witness :
    ((RateLimiter.mk 2 1000 [("u", ⟨2, 1000⟩)]).check "u" 200).1.allowed
        = false ∧
    ((RateLimiter.mk 2 1000 [("u", ⟨2, 1000⟩)]).check "u" 200).2
        = RateLimiter.mk 2 1000 [("u", ⟨2, 1000⟩)] :=
  rateLimiter_denied_frame (RateLimiter.mk 2 1000 [("u", ⟨2, 1000⟩)]) "u" 200
    ⟨2, 1000⟩ (by decide) (by decide) (by decide)

/- ──────────────── Persistence (src/db.ts) and SecurityGate (src/gate.ts) ── -/

/-- A row of the `pairing_codes` table. -/
structure PairingCode where
  code : String
  userId : String
  channel : String
  expiresAt : Nat
  used : Bool
deriving Repr, DecidableEq

/-- Kinds of `SecurityEvent` rows. -/
inductive EventType where
  | blocked
  | allowlist_hit
  | pairing_approved
deriving Repr, DecidableEq

/-- A row of the `security_events` table. -/
structure SecurityEvent where
  id : String
  type : EventType
  userId : String
  channel : String
  details : String
  timestamp : Nat
deriving Repr, DecidableEq

/-- The persistent store as the gate sees it: the `pairing_codes`,
`allowlist` and `security_events` tables. -/
structure Db where
  pairingCodes : List PairingCode
  allowlist : List (String × String)
  events : List SecurityEvent
deriving Repr, DecidableEq

/-- The row filter of both `getPairingCode` and `consumePairingCode`:
`code = ? AND used = 0 AND expires_at > now`. -/
def pairingRowLive (p : PairingCode) (code : String) (now : Nat) : Bool :=
  p.code = code && p.used = false && decide (now < p.expiresAt)

/-- `savePairingCode`: INSERT a fresh row (with `used = 0`). -/
def savePairingCode (db : Db) (p : PairingCode) : Db :=
  { db with pairingCodes := { p with used := false } :: db.pairingCodes }

/-- `getPairingCode`: SELECT the row with this code that is unused and
unexpired. -/
def getPairingCode (db : Db) (code : String) (now : Nat) : Option PairingCode :=
  db.pairingCodes.find? (fun p => pairingRowLive p code now)

/-- `consumePairingCode`: UPDATE `used = 1` on the unused, unexpired rows
with this code; returns whether any row changed, together with the updated
store (src/db.ts lines 320–323). -/
def consumePairingCode (db : Db) (code : String) (now : Nat) : Bool × Db :=
  (db.pairingCodes.any (fun p => pairingRowLive p code now),
   { db with pairingCodes :=
       db.pairingCodes.map (fun p =>
         if pairingRowLive p code now then { p with used := true } else p) })

/-- `addToAllowlist`: INSERT OR IGNORE of the (userId, channel) pair. -/
def addToAllowlist (db : Db) (userId channel : String) : Db :=
  if db.allowlist.any (fun p => p.1 = userId && p.2 = channel) then db
  else { db with allowlist := (userId, channel) :: db.allowlist }

/-- `isAllowlisted`: membership in the `allowlist` table. -/
def isAllowlisted (db : Db) (userId channel : String) : Bool :=
  db.allowlist.any (fun p => p.1 = userId && p.2 = channel)

/-- `logSecurityEvent`: append-only insert into `security_events`. -/
def logSecurityEvent (db : Db) (e : SecurityEvent) : Db :=
  { db with events := e :: db.events }

/-- Result shape of `SecurityGate.approvePairing`. -/
structure ApproveResult where
  success : Bool
  userId : Option String
  channel : Option String
deriving Repr, DecidableEq

/-- `SecurityGate.approvePairing(code)` at clock value `now` (`eventId` is
the nanoid for the audit record): looks the code up, consumes it, and on
success adds the code's identity to the dynamic allowlist and records a
`pairing_approved` event (src/gate.ts lines 48–57). -/
def SecurityGate.approvePairing (db : Db) (code : String) (now : Nat)
    (eventId : String) : ApproveResult × Db :=
  match getPairingCode db code now with
  | none => (⟨false, none, none⟩, db)
  | some entry =>
      let consumed := consumePairingCode db code now
      if consumed.1 then
        let db2 := addToAllowlist consumed.2 entry.userId entry.channel
        let db3 := logSecurityEvent db2
          ⟨eventId, EventType.pairing_approved, entry.userId, entry.channel,
           "Code: " ++ code, now⟩
        (⟨true, some entry.userId, some entry.channel⟩, db3)
      else
        (⟨false, none, none⟩, consumed.2)

/-- Every row carrying this code is already used or has expired by time `t`:
the state in which the code can never be consumed again. -/
def codeDead (db : Db) (code : String) (t : Nat) : Prop :=
  ∀ p ∈ db.pairingCodes, p.code = code → p.used = true ∨ p.expiresAt ≤ t

/-- Results of a sequence of consumption attempts for one code at the given
clock values. -/
def consumeMany (db : Db) (code : String) : List Nat → List Bool
  | [] => []
  | t :: ts =>
      let step := consumePairingCode db code t
      step.1 :: consumeMany step.2 code ts

theorem codeDead_mono {db : Db} {code : String} {t t' : Nat} (h : t ≤ t')
    (hd : codeDead db code t) : codeDead db code t' := by
  intro p hp hc
  rcases hd p hp hc with h1 | h1
  · exact Or.inl h1
  · exact Or.inr (le_trans h1 h)

theorem pairingRowLive_false_of_dead {db : Db} {code : String} {t : Nat}
    (hd : codeDead db code t) :
    ∀ p ∈ db.pairingCodes, pairingRowLive p code t = false := by
  intro p hp
  unfold pairingRowLive
  by_cases hc : p.code = code
  · rcases hd p hp hc with h1 | h1
    · simp [h1]
    · simp [Nat.not_lt.mpr h1]
  · simp [hc]

theorem consume_false_of_dead {db : Db} {code : String} {t : Nat}
    (hd : codeDead db code t) :
    (consumePairingCode db code t).1 = false := by
  unfold consumePairingCode
  simp only [List.any_eq_true, not_exists]
  rw [List.any_eq_false]
  intro p hp
  simp [pairingRowLive_false_of_dead hd p hp]

theorem getPairingCode_none_of_dead {db : Db} {code : String} {t : Nat}
    (hd : codeDead db code t) :
    getPairingCode db code t = none := by
  unfold getPairingCode
  rw [List.find?_eq_none]
  intro p hp
  simp [pairingRowLive_false_of_dead hd p hp]

theorem approve_false_of_dead {db : Db} {code : String} {t : Nat}
    (hd : codeDead db code t) (eventId : String) :
    (SecurityGate.approvePairing db code t eventId).1.success = false := by
  unfold SecurityGate.approvePairing
  rw [getPairingCode_none_of_dead hd]

/-- After any consumption attempt, every row with that code is used or
expired relative to the attempt's time. -/
theorem codeDead_after_consume (db : Db) (code : String) (t : Nat) :
    codeDead (consumePairingCode db code t).2 code t := by
  intro p hp hc
  simp only [consumePairingCode, List.mem_map] at hp
  rcases hp with ⟨q, hq, rfl⟩
  by_cases hl : pairingRowLive q code t = true
  · simp [hl]
  · rw [if_neg hl] at hc ⊢
    unfold pairingRowLive at hl
    by_cases hu : q.used = true
    · exact Or.inl hu
    · refine Or.inr ?_
      simp [hc, hu] at hl
      omega

/-- `codeDead` is preserved by any later consumption attempt (for any code,
at any time): consumption only ever sets `used` to true. -/
theorem codeDead_preserved_consume {db : Db} {code : String} {t : Nat}
    (hd : codeDead db code t) (code' : String) (t' : Nat) :
    codeDead (consumePairingCode db code' t').2 code t := by
  intro p hp hc
  simp only [consumePairingCode, List.mem_map] at hp
  rcases hp with ⟨q, hq, rfl⟩
  by_cases hl : pairingRowLive q code' t' = true
  · simp [hl]
  · rw [if_neg hl] at hc ⊢
    exact hd q hq hc

theorem consumeMany_all_false {db : Db} {code : String} {t : Nat}
    (hd : codeDead db code t) :
    ∀ ts : List Nat, (∀ t' ∈ ts, t ≤ t') →
      ∀ r ∈ consumeMany db code ts, r = false := by
  intro ts
  induction ts generalizing db with
  | nil => intro _ r hr; simp [consumeMany] at hr
  | cons t' ts ih =>
      intro hts r hr
      have ht' : t ≤ t' := hts t' (by simp)
      simp only [consumeMany, List.mem_cons] at hr
      rcases hr with rfl | hr
      · exact consume_false_of_dead (codeDead_mono ht' hd)
      · exact ih (codeDead_preserved_consume hd code t')
          (fun u hu => hts u (by simp [hu])) r hr

theorem consumeMany_count_le_one (db : Db) (code : String)
    (ts : List Nat) (hts : ts.Pairwise (· ≤ ·)) :
    (consumeMany db code ts).count true ≤ 1 := by
  induction ts generalizing db with
  | nil => simp [consumeMany]
  | cons t ts ih =>
      rcases List.pairwise_cons.mp hts with ⟨hhead, htail⟩
      by_cases h : (consumePairingCode db code t).1 = true
      · have hdead := codeDead_after_consume db code t
        have hall := consumeMany_all_false hdead ts hhead
        have hzero :
            (consumeMany (consumePairingCode db code t).2 code ts).count true
              = 0 := by
          rw [List.count_eq_zero]
          intro hmem
          exact absurd (hall true hmem) (by simp)
        simp [consumeMany, h, List.count_cons, hzero]
      · have hrest := ih (consumePairingCode db code t).2 htail
        simp only [consumeMany, List.count_cons]
        have : (decide ((consumePairingCode db code t).1 = true)) = false := by
          simpa using h
        simp only [Bool.not_eq_true] at h
        simp [h]
        omega

/-- Claim C1: A pairing code can be consumed successfully at most once: once
`consumePairingCode` has returned true — or the code has expired, or it was
never saved — every later `consumePairingCode` call for that code returns
false and every `SecurityGate.approvePairing` call with that code reports
`success = false`; and over any monotone sequence of consumption attempts
for one code, at most one attempt succeeds. -/
theorem pairingCode_consume_once (db : Db) (code : String) (t t' : Nat)
    (eventId : String) (hle : t ≤ t') :
    ((consumePairingCode db code t).1 = true →
      (consumePairingCode (consumePairingCode db code t).2 code t').1
          = false ∧
      (SecurityGate.approvePairing (consumePairingCode db code t).2 code t'
          eventId).1.success = false) ∧
    ((∀ p ∈ db.pairingCodes, ¬ p.code = code) →
      (consumePairingCode db code t).1 = false ∧
      (SecurityGate.approvePairing db code t eventId).1.success = false) ∧
    ((∀ p ∈ db.pairingCodes, p.code = code → p.expiresAt ≤ t) →
      (consumePairingCode db code t').1 = false ∧
      (SecurityGate.approvePairing db code t' eventId).1.success = false) ∧
    (∀ ts : List Nat, ts.Pairwise (· ≤ ·) →
      (consumeMany db code ts).count true ≤ 1) := by
  refine ⟨?_, ?_, ?_, ?_⟩
  · intro _
    have hdead : codeDead (consumePairingCode db code t).2 code t' :=
      codeDead_mono hle (codeDead_after_consume db code t)
    exact ⟨consume_false_of_dead hdead, approve_false_of_dead hdead eventId⟩
  · intro h
    have hdead : codeDead db code t := by
      intro p hp hc
      exact absurd hc (h p hp)
    exact ⟨consume_false_of_dead hdead, approve_false_of_dead hdead eventId⟩
  · intro h
    have hdead : codeDead db code t' := by
      intro p hp hc
      exact Or.inr (le_trans (h p hp hc) hle)
    exact ⟨consume_false_of_dead hdead, approve_false_of_dead hdead eventId⟩
  · intro ts hts
    exact consumeMany_count_le_one db code ts hts

/-- Witness for C1: a store holding the single live code `"ABC123"`
(expiring at 1000).  Consuming at time 10 succeeds; re-consuming and
approving at time 20 both fail; over attempts at times 10, 20, 30 exactly
one succeeds. -/
theorem pairingCode_consume_once_witness :
    (consumePairingCode
        (⟨[⟨"ABC123", "u", "telegram", 1000, false⟩], [], []⟩ : Db)
        "ABC123" 10).1 = true ∧
    (consumePairingCode
        (consumePairingCode
          (⟨[⟨"ABC123", "u", "telegram", 1000, false⟩], [], []⟩ : Db)
          "ABC123" 10).2 "ABC123" 20).1 = false ∧
    (SecurityGate.approvePairing
        (consumePairingCode
          (⟨[⟨"ABC123", "u", "telegram", 1000, false⟩], [], []⟩ : Db)
          "ABC123" 10).2 "ABC123" 20 "e1").1.success = false ∧
    (consumeMany (⟨[⟨"ABC123", "u", "telegram", 1000, false⟩], [], []⟩ : Db)
        "ABC123" [10, 20, 30]).count true ≤ 1 := by
  have h := pairingCode_consume_once
    (⟨[⟨"ABC123", "u", "telegram", 1000, false⟩], [], []⟩ : Db)
    "ABC123" 10 20 "e1" (by decide)
  refine ⟨by decide, (h.1 (by decide)).1, (h.1 (by decide)).2, ?_⟩
  exact h.2.2.2 [10, 20, 30] (by decide)

/- ─────────────────────── SecurityGate.check (src/gate.ts) ────────────────── -/

/-- Message channels known to the gate. -/
inductive Channel where
  | whatsapp
  | telegram
deriving Repr, DecidableEq

/-- The string form stored in the database columns. -/
def Channel.str : Channel → String
  | .whatsapp => "whatsapp"
  | .telegram => "telegram"

/-- `config.security.dmPolicy`. -/
inductive DmPolicy where
  | strict
  | pairing
deriving Repr, DecidableEq

/-- The slice of `Config` that `SecurityGate.check` reads. -/
structure GateConfig where
  dmPolicy : DmPolicy
  pairingCodeLength : Nat
  telegramAllowedUserIds : List String
  whatsappAllowedNumbers : List String
deriving Repr, DecidableEq

/-- `getHardcodedAllowlist` (src/gate.ts lines 59–64). -/
def getHardcodedAllowlist (cfg : GateConfig) : Channel → List String
  | .telegram => cfg.telegramAllowedUserIds
  | .whatsapp => cfg.whatsappAllowedNumbers

/-- Lower-case hexadecimal digit, as in Node's `Buffer.toString("hex")`. -/
def hexDigit (n : Nat) : Char :=
  if n < 10 then Char.ofNat (48 + n) else Char.ofNat (87 + n)

/-- The two hex characters of one byte. -/
def byteHex (b : Nat) : List Char :=
  [hexDigit (b / 16 % 16), hexDigit (b % 16)]

/-- `randomBytes(⌈len/2⌉).toString("hex").slice(0, len).toUpperCase()`,
with the drawn random bytes passed in explicitly
(src/gate.ts lines 67–70). -/
def pairingCodeOfBytes (bytes : List Nat) (len : Nat) : String :=
  String.mk ((((bytes.map byteHex).flatten).take len).map Char.toUpper)

/-- Result shape of `SecurityGate.check`. -/
structure GateDecision where
  allowed : Bool
  reason : Option String
  pairingCode : Option String
deriving Repr, DecidableEq

/-- `SecurityGate.issuePairingCode` (src/gate.ts lines 66–80): builds the
code string, persists a fresh unused row with a 10-minute expiry, and
returns the code. -/
def SecurityGate.issuePairingCode (cfg : GateConfig) (db : Db)
    (userId : String) (channel : Channel) (now : Nat) (randBytes : List Nat) :
    String × Db :=
  let code := pairingCodeOfBytes randBytes cfg.pairingCodeLength
  (code,
   savePairingCode db ⟨code, userId, channel.str, now + 10 * 60 * 1000, false⟩)

/-- `SecurityGate.check` (src/gate.ts lines 22–43).  The nanoid of the audit
record and the random bytes of a potentially issued code are explicit
parameters.  The source returns the allow result from a single fall-through
point; here that shared tail appears once in each branch that reaches
it. -/
def SecurityGate.check (cfg : GateConfig) (db : Db) (userId : String)
    (channel : Channel) (now : Nat) (randBytes : List Nat)
    (eventId : String) : GateDecision × Db :=
  let hardcoded := getHardcodedAllowlist cfg channel
  if 0 < hardcoded.length ∧ userId ∉ hardcoded then
    if ¬ (isAllowlisted db userId channel.str = true) then
      match cfg.dmPolicy with
      | .pairing =>
          let issued :=
            SecurityGate.issuePairingCode cfg db userId channel now randBytes
          (⟨false, some "pairing_required", some issued.1⟩,
           logSecurityEvent issued.2
             ⟨eventId, EventType.blocked, userId, channel.str,
              "Pairing code issued: " ++ issued.1, now⟩)
      | .strict =>
          (⟨false, some "not_allowed", none⟩,
           logSecurityEvent db
             ⟨eventId, EventType.blocked, userId, channel.str,
              "Not in allowlist", now⟩)
    else
      (⟨true, none, none⟩,
       logSecurityEvent db
         ⟨eventId, EventType.allowlist_hit, userId, channel.str,
          "Access granted", now⟩)
  else
    (⟨true, none, none⟩,
     logSecurityEvent db
       ⟨eventId, EventType.allowlist_hit, userId, channel.str,
        "Access granted", now⟩)

theorem hexJoin_length (bytes : List Nat) :
    ((bytes.map byteHex).flatten).length = 2 * bytes.length := by
  induction bytes with
  | nil => simp
  | cons b l ih =>
      simp [byteHex, ih]
      omega

theorem pairingCodeOfBytes_length (bytes : List Nat) (len : Nat)
    (h : len ≤ 2 * bytes.length) :
    (pairingCodeOfBytes bytes len).length = len := by
  have : (String.mk ((((bytes.map byteHex).flatten).take len).map
      Char.toUpper)).length
      = ((((bytes.map byteHex).flatten).take len).map Char.toUpper).length := rfl
  rw [pairingCodeOfBytes, this, List.length_map, List.length_take,
    hexJoin_length]
  omega

/-- Claim C4: `SecurityGate.check` decides as specified.  With the static
allowlist empty or containing the identity it allows; with a non-empty
static list not containing the identity it allows iff the dynamic allowlist
holds the identity; when neither list holds it, policy `pairing` yields a
denial carrying a freshly persisted code of exactly the configured length
with a 10-minute expiry and a `blocked` event whose details mention the
code, and policy `strict` yields a denial with no code and a `blocked`
event; and every allowed outcome is accompanied by an `allowlist_hit`
event. -/
theorem securityGate_check_spec (cfg : GateConfig) (db : Db)
    (userId : String) (channel : Channel) (now : Nat) (randBytes : List Nat)
    (eventId : String)
    (hbytes : randBytes.length = (cfg.pairingCodeLength + 1) / 2) :
    (getHardcodedAllowlist cfg channel = [] ∨
        userId ∈ getHardcodedAllowlist cfg channel →
      SecurityGate.check cfg db userId channel now randBytes eventId =
        (⟨true, none, none⟩,
         logSecurityEvent db
           ⟨eventId, EventType.allowlist_hit, userId, channel.str,
            "Access granted", now⟩)) ∧
    (¬ getHardcodedAllowlist cfg channel = [] →
     userId ∉ getHardcodedAllowlist cfg channel →
     isAllowlisted db userId channel.str = true →
      SecurityGate.check cfg db userId channel now randBytes eventId =
        (⟨true, none, none⟩,
         logSecurityEvent db
           ⟨eventId, EventType.allowlist_hit, userId, channel.str,
            "Access granted", now⟩)) ∧
    (¬ getHardcodedAllowlist cfg channel = [] →
     userId ∉ getHardcodedAllowlist cfg channel →
     isAllowlisted db userId channel.str = false →
     cfg.dmPolicy = DmPolicy.pairing →
      (SecurityGate.check cfg db userId channel now randBytes eventId).1 =
        ⟨false, some "pairing_required",
         some (pairingCodeOfBytes randBytes cfg.pairingCodeLength)⟩ ∧
      (pairingCodeOfBytes randBytes cfg.pairingCodeLength).length =
        cfg.pairingCodeLength ∧
      (SecurityGate.check cfg db userId channel now randBytes
          eventId).2.pairingCodes =
        ⟨pairingCodeOfBytes randBytes cfg.pairingCodeLength, userId,
         channel.str, now + 10 * 60 * 1000, false⟩ :: db.pairingCodes ∧
      (SecurityGate.check cfg db userId channel now randBytes
          eventId).2.events =
        ⟨eventId, EventType.blocked, userId, channel.str,
         "Pairing code issued: " ++
           pairingCodeOfBytes randBytes cfg.pairingCodeLength, now⟩ ::
          db.events) ∧
    (¬ getHardcodedAllowlist cfg channel = [] →
     userId ∉ getHardcodedAllowlist cfg channel →
     isAllowlisted db userId channel.str = false →
     cfg.dmPolicy = DmPolicy.strict →
      SecurityGate.check cfg db userId channel now randBytes eventId =
        (⟨false, some "not_allowed", none⟩,
         logSecurityEvent db
           ⟨eventId, EventType.blocked, userId, channel.str,
            "Not in allowlist", now⟩)) ∧
    ((SecurityGate.check cfg db userId channel now randBytes
        eventId).1.allowed = true →
      (SecurityGate.check cfg db userId channel now randBytes
          eventId).2.events =
        ⟨eventId, EventType.allowlist_hit, userId, channel.str,
         "Access granted", now⟩ :: db.events) := by
  have hlen : (pairingCodeOfBytes randBytes cfg.pairingCodeLength).length =
      cfg.pairingCodeLength := by
    apply pairingCodeOfBytes_length
    omega
  refine ⟨?_, ?_, ?_, ?_, ?_⟩
  · rintro (h | h)
    · simp [SecurityGate.check, h]
    · have : ¬ (0 < (getHardcodedAllowlist cfg channel).length ∧
          userId ∉ getHardcodedAllowlist cfg channel) := by
        intro hc
        exact hc.2 h
      simp [SecurityGate.check, this]
  · intro h1 h2 h3
    have hcond : 0 < (getHardcodedAllowlist cfg channel).length ∧
        userId ∉ getHardcodedAllowlist cfg channel :=
      ⟨List.length_pos.mpr h1, h2⟩
    simp [SecurityGate.check, hcond, h3]
  · intro h1 h2 h3 hpol
    have hcond : 0 < (getHardcodedAllowlist cfg channel).length ∧
        userId ∉ getHardcodedAllowlist cfg channel :=
      ⟨List.length_pos.mpr h1, h2⟩
    refine ⟨?_, hlen, ?_, ?_⟩ <;>
      simp [SecurityGate.check, hcond, h3, hpol,
        SecurityGate.issuePairingCode, savePairingCode, logSecurityEvent]
  · intro h1 h2 h3 hpol
    have hcond : 0 < (getHardcodedAllowlist cfg channel).length ∧
        userId ∉ getHardcodedAllowlist cfg channel :=
      ⟨List.length_pos.mpr h1, h2⟩
    simp [SecurityGate.check, hcond, h3, hpol]
  · intro hallow
    unfold SecurityGate.check at hallow ⊢
    by_cases hcond : 0 < (getHardcodedAllowlist cfg channel).length ∧
        userId ∉ getHardcodedAllowlist cfg channel
    · rw [if_pos hcond] at hallow ⊢
      by_cases h3 : isAllowlisted db userId channel.str = true
      · simp [h3, logSecurityEvent]
      · rw [if_pos h3] at hallow ⊢
        cases hpol : cfg.dmPolicy with
        | pairing => simp [hpol] at hallow
        | strict => simp [hpol] at hallow
    · rw [if_neg hcond] at hallow ⊢
      simp [logSecurityEvent]

/-- Witness for C4: a pairing-policy gate with code length 6, an owner-only
telegram allowlist, and a stranger; the issued code from random bytes
0xAB 0xCD 0xEF is `"ABCDEF"`, of length 6. -/
theorem securityGate_check_spec_witness :
    (SecurityGate.check
        ⟨DmPolicy.pairing, 6, ["owner"], []⟩
        (⟨[], [], []⟩ : Db) "stranger" Channel.telegram 0
        [171, 205, 239] "e1").1 =
      ⟨false, some "pairing_required", some "ABCDEF"⟩ ∧
    ("ABCDEF" : String).length = 6 := by
  have h := securityGate_check_spec ⟨DmPolicy.pairing, 6, ["owner"], []⟩
    (⟨[], [], []⟩ : Db) "stranger" Channel.telegram 0 [171, 205, 239] "e1"
    (by decide)
  have hcode : pairingCodeOfBytes [171, 205, 239] 6 = "ABCDEF" := by decide
  have h3 := h.2.2.1 (by decide) (by decide) (by decide) rfl
  constructor
  · rw [← hcode]
    exact h3.1
  · rw [← hcode]
    exact h3.2.1

/- ─────────────────── ContainerRunner (src/gate.ts, docker branch) ────────── -/

/-- The slice of `config.security.container` the runner reads. -/
structure ContainerCfg where
  image : String
  memoryLimit : String
  cpuLimit : String
deriving Repr, DecidableEq

/-- Container name of the default sandboxed run; the nanoid nonce is an
explicit parameter. -/
def sandboxContainerName (nonce : String) : String :=
  "mybot-sandbox-" ++ nonce

/-- Container name of the network-enabled run. -/
def networkContainerName (nonce : String) : String :=
  "mybot-net-" ++ nonce

/-- The docker argument list built by `ContainerRunner.runInSandbox`
(src/gate.ts lines 199–214). -/
def runInSandboxArgs (cfg : ContainerCfg)
    (containerName workspacePath command : String) : List String :=
  ["run",
   "--rm",
   "--name", containerName,
   "--memory", cfg.memoryLimit,
   "--cpus", cfg.cpuLimit,
   "--network", "none",
   "--read-only",
   "--tmpfs", "/tmp:size=100m",
   "-v", workspacePath ++ ":/workspace:rw",
   "--workdir", "/workspace",
   "--user", "1000:1000",
   "--security-opt", "no-new-privileges",
   cfg.image,
   "sh", "-c", command]

/-- The docker argument list built by `ContainerRunner.runWithNetwork`
(src/gate.ts lines 259–272). -/
def runWithNetworkArgs (cfg : ContainerCfg)
    (containerName workspacePath command : String) : List String :=
  ["run",
   "--rm",
   "--name", containerName,
   "--memory", cfg.memoryLimit,
   "--cpus", cfg.cpuLimit,
   "--tmpfs", "/tmp:size=100m",
   "-v", workspacePath ++ ":/workspace:rw",
   "--workdir", "/workspace",
   "--user", "1000:1000",
   "--security-opt", "no-new-privileges",
   cfg.image,
   "sh", "-c", command]

/-- Counterexample for C2: The network-enabled run's docker argument list
does not contain the read-only-root flag, so the claim that every sandboxed
invocation carries the full constraint flag set (including a read-only root
filesystem) is false for `runWithNetwork`. -/
theorem networkRun_missing_readonly_flag :
    ¬ ("--read-only" ∈ runWithNetworkArgs
        ⟨"mybot-sandbox", "512m", "1"⟩
        (networkContainerName "abc12345") "/ws" "curl example.com") ∧
    "--read-only" ∈ runInSandboxArgs
        ⟨"mybot-sandbox", "512m", "1"⟩
        (sandboxContainerName "abc12345") "/ws" "curl example.com" := by
  decide

/-- Claim C2, amended: For both docker-branch runs the container is ephemeral
(`--rm`) and uniquely named (the name determines the nonce, and the two
run kinds can never collide), and the argument list carries the memory cap,
CPU cap, size-capped tmpfs on /tmp, the workspace as writable mount,
workdir, non-root user and no-new-privileges; the default run additionally
pins `--network none` and `--read-only`, while the network-enabled run
omits the network-disabling flag — and, deviating from the original claim,
also omits the read-only-root flag. -/
theorem containerRunner_args_spec (cfg : ContainerCfg)
    (nonce workspacePath command : String)
    (hn1 : ¬ "--network" = networkContainerName nonce)
    (hn2 : ¬ "--network" = cfg.memoryLimit)
    (hn3 : ¬ "--network" = cfg.cpuLimit)
    (hn4 : ¬ "--network" = workspacePath ++ ":/workspace:rw")
    (hn5 : ¬ "--network" = cfg.image)
    (hn6 : ¬ "--network" = command)
    (hr1 : ¬ "--read-only" = networkContainerName nonce)
    (hr2 : ¬ "--read-only" = cfg.memoryLimit)
    (hr3 : ¬ "--read-only" = cfg.cpuLimit)
    (hr4 : ¬ "--read-only" = workspacePath ++ ":/workspace:rw")
    (hr5 : ¬ "--read-only" = cfg.image)
    (hr6 : ¬ "--read-only" = command) :
    ("--rm" ∈ runInSandboxArgs cfg (sandboxContainerName nonce)
        workspacePath command ∧
     "--rm" ∈ runWithNetworkArgs cfg (networkContainerName nonce)
        workspacePath command) ∧
    (["--name", sandboxContainerName nonce] <:+: runInSandboxArgs cfg
        (sandboxContainerName nonce) workspacePath command ∧
     ["--name", networkContainerName nonce] <:+: runWithNetworkArgs cfg
        (networkContainerName nonce) workspacePath command) ∧
    (["--memory", cfg.memoryLimit] <:+: runInSandboxArgs cfg
        (sandboxContainerName nonce) workspacePath command ∧
     ["--memory", cfg.memoryLimit] <:+: runWithNetworkArgs cfg
        (networkContainerName nonce) workspacePath command) ∧
    (["--cpus", cfg.cpuLimit] <:+: runInSandboxArgs cfg
        (sandboxContainerName nonce) workspacePath command ∧
     ["--cpus", cfg.cpuLimit] <:+: runWithNetworkArgs cfg
        (networkContainerName nonce) workspacePath command) ∧
    (["--tmpfs", "/tmp:size=100m"] <:+: runInSandboxArgs cfg
        (sandboxContainerName nonce) workspacePath command ∧
     ["--tmpfs", "/tmp:size=100m"] <:+: runWithNetworkArgs cfg
        (networkContainerName nonce) workspacePath command) ∧
    (["-v", workspacePath ++ ":/workspace:rw"] <:+: runInSandboxArgs cfg
        (sandboxContainerName nonce) workspacePath command ∧
     ["-v", workspacePath ++ ":/workspace:rw"] <:+: runWithNetworkArgs cfg
        (networkContainerName nonce) workspacePath command) ∧
    (["--user", "1000:1000"] <:+: runInSandboxArgs cfg
        (sandboxContainerName nonce) workspacePath command ∧
     ["--user", "1000:1000"] <:+: runWithNetworkArgs cfg
        (networkContainerName nonce) workspacePath command) ∧
    (["--security-opt", "no-new-privileges"] <:+: runInSandboxArgs cfg
        (sandboxContainerName nonce) workspacePath command ∧
     ["--security-opt", "no-new-privileges"] <:+: runWithNetworkArgs cfg
        (networkContainerName nonce) workspacePath command) ∧
    (["--network", "none"] <:+: runInSandboxArgs cfg
        (sandboxContainerName nonce) workspacePath command ∧
     "--read-only" ∈ runInSandboxArgs cfg (sandboxContainerName nonce)
        workspacePath command) ∧
    (¬ "--network" ∈ runWithNetworkArgs cfg (networkContainerName nonce)
        workspacePath command ∧
     ¬ "--read-only" ∈ runWithNetworkArgs cfg (networkContainerName nonce)
        workspacePath command) ∧
    (∀ n1 n2, sandboxContainerName n1 = sandboxContainerName n2 →
        n1 = n2) ∧
    (∀ n1 n2, networkContainerName n1 = networkContainerName n2 →
        n1 = n2) ∧
    (∀ n1 n2, ¬ sandboxContainerName n1 = networkContainerName n2) := by
  refine ⟨⟨by simp [runInSandboxArgs], by simp [runWithNetworkArgs]⟩,
    ⟨⟨["run", "--rm"], _, rfl⟩, ⟨["run", "--rm"], _, rfl⟩⟩,
    ⟨⟨["run", "--rm", "--name", sandboxContainerName nonce], _, rfl⟩,
     ⟨["run", "--rm", "--name", networkContainerName nonce], _, rfl⟩⟩,
    ⟨⟨["run", "--rm", "--name", sandboxContainerName nonce, "--memory",
        cfg.memoryLimit], _, rfl⟩,
     ⟨["run", "--rm", "--name", networkContainerName nonce, "--memory",
        cfg.memoryLimit], _, rfl⟩⟩,
    ⟨⟨["run", "--rm", "--name", sandboxContainerName nonce, "--memory",
        cfg.memoryLimit, "--cpus", cfg.cpuLimit, "--network", "none",
        "--read-only"], _, rfl⟩,
     ⟨["run", "--rm", "--name", networkContainerName nonce, "--memory",
        cfg.memoryLimit, "--cpus", cfg.cpuLimit], _, rfl⟩⟩,
    ⟨⟨["run", "--rm", "--name", sandboxContainerName nonce, "--memory",
        cfg.memoryLimit, "--cpus", cfg.cpuLimit, "--network", "none",
        "--read-only", "--tmpfs", "/tmp:size=100m"], _, rfl⟩,
     ⟨["run", "--rm", "--name", networkContainerName nonce, "--memory",
        cfg.memoryLimit, "--cpus", cfg.cpuLimit, "--tmpfs",
        "/tmp:size=100m"], _, rfl⟩⟩,
    ⟨⟨["run", "--rm", "--name", sandboxContainerName nonce, "--memory",
        cfg.memoryLimit, "--cpus", cfg.cpuLimit, "--network", "none",
        "--read-only", "--tmpfs", "/tmp:size=100m", "-v",
        workspacePath ++ ":/workspace:rw", "--workdir", "/workspace"],
        _, rfl⟩,
     ⟨["run", "--rm", "--name", networkContainerName nonce, "--memory",
        cfg.memoryLimit, "--cpus", cfg.cpuLimit, "--tmpfs",
        "/tmp:size=100m", "-v", workspacePath ++ ":/workspace:rw",
        "--workdir", "/workspace"], _, rfl⟩⟩,
    ⟨⟨["run", "--rm", "--name", sandboxContainerName nonce, "--memory",
        cfg.memoryLimit, "--cpus", cfg.cpuLimit, "--network", "none",
        "--read-only", "--tmpfs", "/tmp:size=100m", "-v",
        workspacePath ++ ":/workspace:rw", "--workdir", "/workspace",
        "--user", "1000:1000"], _, rfl⟩,
     ⟨["run", "--rm", "--name", networkContainerName nonce, "--memory",
        cfg.memoryLimit, "--cpus", cfg.cpuLimit, "--tmpfs",
        "/tmp:size=100m", "-v", workspacePath ++ ":/workspace:rw",
        "--workdir", "/workspace", "--user", "1000:1000"], _, rfl⟩⟩,
    ⟨⟨["run", "--rm", "--name", sandboxContainerName nonce, "--memory",
        cfg.memoryLimit, "--cpus", cfg.cpuLimit], _, rfl⟩,
     by simp [runInSandboxArgs]⟩,
    ⟨?_, ?_⟩, ?_, ?_, ?_⟩
  · intro hmem
    simp only [runWithNetworkArgs, List.mem_cons, List.not_mem_nil,
      or_false] at hmem
    rcases hmem with h | h | h | h | h | h | h | h | h | h | h | h | h | h |
        h | h | h | h | h | h | h | h
    all_goals first
      | exact absurd h (by decide)
      | exact hn1 h
      | exact hn2 h
      | exact hn3 h
      | exact hn4 h
      | exact hn5 h
      | exact hn6 h
  · intro hmem
    simp only [runWithNetworkArgs, List.mem_cons, List.not_mem_nil,
      or_false] at hmem
    rcases hmem with h | h | h | h | h | h | h | h | h | h | h | h | h | h |
        h | h | h | h | h | h | h | h
    all_goals first
      | exact absurd h (by decide)
      | exact hr1 h
      | exact hr2 h
      | exact hr3 h
      | exact hr4 h
      | exact hr5 h
      | exact hr6 h
  · intro n1 n2 h
    have hd := congrArg String.data h
    rw [sandboxContainerName, sandboxContainerName, String.data_append,
      String.data_append] at hd
    exact String.ext (List.append_cancel_left hd)
  · intro n1 n2 h
    have hd := congrArg String.data h
    rw [networkContainerName, networkContainerName, String.data_append,
      String.data_append] at hd
    exact String.ext (List.append_cancel_left hd)
  · intro n1 n2 h
    have hd := congrArg String.data h
    rw [sandboxContainerName, networkContainerName, String.data_append,
      String.data_append] at hd
    have ht := congrArg (List.take 10) hd
    rw [List.take_append_of_le_length (by decide),
      List.take_append_of_le_length (by decide)] at ht
    exact absurd ht (by decide)

/-- Witness for C2 (amended): the flag-set properties at a concrete
configuration, nonce, workspace and command. -/
theorem containerRunner_args_spec_witness :
    ("--rm" ∈ runInSandboxArgs ⟨"mybot-sandbox", "512m", "1"⟩
        (sandboxContainerName "abc12345") "/ws" "ls" ∧
     "--rm" ∈ runWithNetworkArgs ⟨"mybot-sandbox", "512m", "1"⟩
        (networkContainerName "abc12345") "/ws" "ls") ∧
    ¬ "--network" ∈ runWithNetworkArgs ⟨"mybot-sandbox", "512m", "1"⟩
        (networkContainerName "abc12345") "/ws" "ls" := by
  have h := containerRunner_args_spec ⟨"mybot-sandbox", "512m", "1"⟩
    "abc12345" "/ws" "ls"
    (by decide) (by decide) (by decide) (by decide) (by decide) (by decide)
    (by decide) (by decide) (by decide) (by decide) (by decide) (by decide)
  exact ⟨h.1, h.2.2.2.2.2.2.2.2.2.1.1⟩

/- ────────────────── AgentLoop (src/unnamed/part_000, agent loop) ─────────── -/

/-- A chat message as sent to the model (`ChatMessage` in src/llm.ts). -/
structure ChatMessage where
  role : String
  content : String
deriving Repr, DecidableEq

/-- A tool call requested by the model. -/
structure ToolCall where
  name : String
  arguments : String
deriving Repr, DecidableEq

/-- A model response: text plus requested tool calls (`LLMResponse`). -/
structure LLMResponse where
  content : String
  toolCalls : List ToolCall
deriving Repr, DecidableEq

/-- Outcome of awaiting one resolved tool's `execute` raced against the
120-second timeout: a result string, or a rejection with an error message.
The timeout rejection is the error whose message is
`"Tool execution timeout"`. -/
inductive ToolOutcome where
  | ok (result : String)
  | err (message : String)
deriving Repr, DecidableEq

/-- `estimateTokens` (src/unnamed/part_000 lines 39–41):
`Math.ceil(text.length / 4)`. -/
def estimateTokens (text : String) : Nat :=
  (text.length + 3) / 4

/-- `estimateMessagesTokens`: reduce over the message contents. -/
def estimateMessagesTokens (messages : List ChatMessage) : Nat :=
  messages.foldl (fun total m => total + estimateTokens m.content) 0

/-- `MAX_HISTORY_TOKENS` (src/unnamed/part_000 line 136). -/
def maxHistoryTokens : Nat := 8000

/-- The truncation while-loop (src/unnamed/part_000 lines 143–148): shift
the oldest message and subtract its estimate while more than two messages
remain and the running estimate exceeds the budget.  `historyTokens` is the
running counter. -/
def truncateAux (systemTokens budget : Nat) :
    List ChatMessage → Nat → List ChatMessage
  | [], _ => []
  | m :: rest, historyTokens =>
      if 2 < (m :: rest).length ∧ budget < systemTokens + historyTokens then
        truncateAux systemTokens budget rest
          (historyTokens - estimateTokens m.content)
      else
        m :: rest

/-- The whole token-budget enforcement step: run the loop with the counter
initialised to the history's estimate. -/
def truncateHistory (systemTokens budget : Nat)
    (messages : List ChatMessage) : List ChatMessage :=
  truncateAux systemTokens budget messages (estimateMessagesTokens messages)

/-- The per-tool-call result string of one round (src/unnamed/part_000
lines 204–233): a registry miss yields the not-found text, a completed
execution the result text, the timeout rejection the timed-out text, and
any other rejection the error text. -/
def toolCallResult (registry : String → Bool)
    (exec : ToolCall → ToolOutcome) (tc : ToolCall) : String :=
  if registry tc.name = false then
    "Tool \"" ++ tc.name ++ "\" not found."
  else
    match exec tc with
    | .ok result => "[" ++ tc.name ++ " result]: " ++ result
    | .err message =>
        if message = "Tool execution timeout" then
          "[" ++ tc.name ++ " error]: Tool timed out after 120 seconds"
        else
          "[" ++ tc.name ++ " error]: " ++ message

/-- One round of the loop body once the model has requested tools: append
the assistant turn (or its placeholder) and the single synthetic user turn
holding all the round's tool results joined by blank lines. -/
def loopRound (registry : String → Bool) (exec : ToolCall → ToolOutcome)
    (messages : List ChatMessage) (response : LLMResponse) :
    List ChatMessage :=
  messages ++
    [⟨"assistant",
      if response.content = "" then "(using tools...)"
      else response.content⟩,
     ⟨"user",
      String.intercalate "\n\n"
        (response.toolCalls.map (toolCallResult registry exec))⟩]

/-- The agentic while-loop (src/unnamed/part_000 lines 179–240), with the
model as an oracle from the current message list to a response.  Returns
`finalResponse`, which stays `""` when the iteration budget is exhausted
while the model still requests tools. -/
def agentLoopAux (llm : List ChatMessage → LLMResponse)
    (registry : String → Bool) (exec : ToolCall → ToolOutcome) :
    Nat → List ChatMessage → String
  | 0, _ => ""
  | fuel + 1, messages =>
      let response := llm messages
      if response.toolCalls.isEmpty then
        response.content
      else
        agentLoopAux llm registry exec fuel
          (loopRound registry exec messages response)

/-- `MAX_ITERATIONS` (src/unnamed/part_000 line 175). -/
def maxIterations : Nat := 10

/-- The fixed fallback apology (src/unnamed/part_000 line 243). -/
def fallbackResponse : String :=
  "(I ran into an issue processing your request. Please try again.)"

/-- The response text `AgentLoop.process` returns: the loop's final
response, with the fallback substituted when it is empty. -/
def processResponse (llm : List ChatMessage → LLMResponse)
    (registry : String → Bool) (exec : ToolCall → ToolOutcome)
    (messages : List ChatMessage) : String :=
  let finalResponse := agentLoopAux llm registry exec maxIterations messages
  if finalResponse = "" then fallbackResponse else finalResponse

/-- The tail of `AgentLoop.process`: the message log after the final
assistant message is persisted via `saveMessage`. -/
def processSavedLog (llm : List ChatMessage → LLMResponse)
    (registry : String → Bool) (exec : ToolCall → ToolOutcome)
    (messages : List ChatMessage) (savedLog : List ChatMessage) :
    List ChatMessage :=
  savedLog ++ [⟨"assistant", processResponse llm registry exec messages⟩]

/-- Claim C5: `AgentLoop.process` always yields a non-empty response: when the
model stops requesting tools and returns non-empty text, that text is the
answer; whenever the loop ends without final text — in particular after the
fixed iteration cap — the fixed fallback apology is substituted; and the
persisted assistant message carries exactly the returned text. -/
theorem agentLoop_nonempty_response (llm : List ChatMessage → LLMResponse)
    (registry : String → Bool) (exec : ToolCall → ToolOutcome)
    (messages savedLog : List ChatMessage) :
    ¬ processResponse llm registry exec messages = "" ∧
    ((llm messages).toolCalls = [] → ¬ (llm messages).content = "" →
      processResponse llm registry exec messages = (llm messages).content) ∧
    (agentLoopAux llm registry exec maxIterations messages = "" →
      processResponse llm registry exec messages = fallbackResponse) ∧
    ⟨"assistant", processResponse llm registry exec messages⟩ ∈
      processSavedLog llm registry exec messages savedLog := by
  refine ⟨?_, ?_, ?_, ?_⟩
  · unfold processResponse
    by_cases h : agentLoopAux llm registry exec maxIterations messages = ""
    · simp [h, fallbackResponse]
    · simp [h]
  · intro hcalls hcontent
    have hloop : agentLoopAux llm registry exec maxIterations messages =
        (llm messages).content := by
      show agentLoopAux llm registry exec (9 + 1) messages =
        (llm messages).content
      rw [agentLoopAux]
      simp [hcalls]
    unfold processResponse
    rw [hloop, if_neg hcontent]
  · intro h
    unfold processResponse
    rw [h]
    rfl
  · unfold processSavedLog
    simp

/-- Witness for C5: a model that immediately answers `"hi"` with no tool
calls; the process returns `"hi"`, which is non-empty and is the persisted
assistant message. -/
theorem agentLoop_nonempty_response_witness :
    ¬ processResponse (fun _ => ⟨"hi", []⟩) (fun _ => false)
        (fun _ => ToolOutcome.err "") [] = "" ∧
    processResponse (fun _ => ⟨"hi", []⟩) (fun _ => false)
        (fun _ => ToolOutcome.err "") [] = "hi" := by
  have h := agentLoop_nonempty_response (fun _ => ⟨"hi", []⟩)
    (fun _ => false) (fun _ => ToolOutcome.err "") [] []
  exact ⟨h.1, h.2.1 rfl (by decide)⟩

/-- Claim C6: Within one round of the tool-calling loop every requested tool
call produces exactly one textual result and none aborts the turn: a name
missing from the registry yields the not-found text, a timeout the
timed-out text, a thrown error the error text, and a completion the result
text; and the round appends all result strings, joined, as one synthetic
user message after the assistant turn. -/
theorem toolRound_results_spec (registry : String → Bool)
    (exec : ToolCall → ToolOutcome) (messages : List ChatMessage)
    (response : LLMResponse) (_hcalls : ¬ response.toolCalls = []) :
    (response.toolCalls.map (toolCallResult registry exec)).length =
      response.toolCalls.length ∧
    (∀ tc ∈ response.toolCalls,
      (registry tc.name = false →
        toolCallResult registry exec tc =
          "Tool \"" ++ tc.name ++ "\" not found.") ∧
      (registry tc.name = true → ∀ s, exec tc = ToolOutcome.ok s →
        toolCallResult registry exec tc =
          "[" ++ tc.name ++ " result]: " ++ s) ∧
      (registry tc.name = true →
        exec tc = ToolOutcome.err "Tool execution timeout" →
        toolCallResult registry exec tc =
          "[" ++ tc.name ++ " error]: Tool timed out after 120 seconds") ∧
      (registry tc.name = true → ∀ m, ¬ m = "Tool execution timeout" →
        exec tc = ToolOutcome.err m →
        toolCallResult registry exec tc =
          "[" ++ tc.name ++ " error]: " ++ m)) ∧
    loopRound registry exec messages response =
      messages ++
        [⟨"assistant",
          if response.content = "" then "(using tools...)"
          else response.content⟩,
         ⟨"user",
          String.intercalate "\n\n"
            (response.toolCalls.map (toolCallResult registry exec))⟩] := by
  refine ⟨List.length_map _ _, ?_, rfl⟩
  intro tc _
  refine ⟨?_, ?_, ?_, ?_⟩
  · intro hreg
    simp [toolCallResult, hreg]
  · intro hreg s hexec
    simp [toolCallResult, hreg, hexec]
  · intro hreg hexec
    simp [toolCallResult, hreg, hexec]
  · intro hreg m hm hexec
    simp [toolCallResult, hreg, hexec, hm]

/-- Witness for C6: a round with four tool calls exercising all four cases
(missing tool, completion, timeout, thrown error). -/
theorem toolRound_results_spec_witness :
    (([⟨"a", ""⟩, ⟨"b", ""⟩, ⟨"c", ""⟩, ⟨"d", ""⟩] :
        List ToolCall).map
      (toolCallResult (fun n => ¬ n = "a")
        (fun tc =>
          if tc.name = "b" then ToolOutcome.ok "fine"
          else if tc.name = "c" then
            ToolOutcome.err "Tool execution timeout"
          else ToolOutcome.err "boom"))) =
      ["Tool \"a\" not found.",
       "[b result]: fine",
       "[c error]: Tool timed out after 120 seconds",
       "[d error]: boom"] := by
  have h := toolRound_results_spec
    (fun n => ¬ n = "a")
    (fun tc =>
      if tc.name = "b" then ToolOutcome.ok "fine"
      else if tc.name = "c" then ToolOutcome.err "Tool execution timeout"
      else ToolOutcome.err "boom")
    []
    ⟨"", [⟨"a", ""⟩, ⟨"b", ""⟩, ⟨"c", ""⟩, ⟨"d", ""⟩]⟩
    (by decide)
  have ha := (h.2.1 ⟨"a", ""⟩ (by decide)).1 (by decide)
  have hb := (h.2.1 ⟨"b", ""⟩ (by decide)).2.1 (by decide) "fine" (by decide)
  have hc := (h.2.1 ⟨"c", ""⟩ (by decide)).2.2.1 (by decide) (by decide)
  have hd := (h.2.1 ⟨"d", ""⟩ (by decide)).2.2.2 (by decide) "boom"
    (by decide) (by decide)
  simp only [List.map_cons, List.map_nil]
  rw [ha, hb, hc, hd]
  decide

theorem estimateMessagesTokens_cons (m : ChatMessage)
    (l : List ChatMessage) :
    estimateMessagesTokens (m :: l) =
      estimateTokens m.content + estimateMessagesTokens l := by
  have key : ∀ (l : List ChatMessage) (a : Nat),
      l.foldl (fun total msg => total + estimateTokens msg.content) a =
        a + l.foldl (fun total msg => total + estimateTokens msg.content) 0 := by
    intro l
    induction l with
    | nil => intro a; simp
    | cons x xs ih =>
        intro a
        simp only [List.foldl_cons]
        rw [ih (a + estimateTokens x.content),
          ih (0 + estimateTokens x.content)]
        omega
  unfold estimateMessagesTokens
  simp only [List.foldl_cons]
  rw [key _ (0 + estimateTokens m.content)]
  omega

theorem truncateAux_spec (systemTokens budget : Nat)
    (messages : List ChatMessage) :
    (truncateAux systemTokens budget messages
        (estimateMessagesTokens messages)) <:+ messages ∧
    min 2 messages.length ≤
      (truncateAux systemTokens budget messages
        (estimateMessagesTokens messages)).length ∧
    ((truncateAux systemTokens budget messages
        (estimateMessagesTokens messages)).length ≤ 2 ∨
      systemTokens + estimateMessagesTokens
        (truncateAux systemTokens budget messages
          (estimateMessagesTokens messages)) ≤ budget) ∧
    (systemTokens + estimateMessagesTokens messages ≤ budget →
      truncateAux systemTokens budget messages
        (estimateMessagesTokens messages) = messages) := by
  induction messages with
  | nil =>
      have hnil : truncateAux systemTokens budget []
          (estimateMessagesTokens []) = [] := rfl
      rw [hnil]
      exact ⟨List.nil_suffix, by simp, Or.inl (by simp), fun _ => rfl⟩
  | cons m rest ih =>
      by_cases hcond : 2 < (m :: rest).length ∧
          budget < systemTokens + estimateMessagesTokens (m :: rest)
      · have hstep : truncateAux systemTokens budget (m :: rest)
            (estimateMessagesTokens (m :: rest)) =
            truncateAux systemTokens budget rest
              (estimateMessagesTokens rest) := by
          rw [truncateAux, if_pos hcond, estimateMessagesTokens_cons]
          congr 1
          omega
        rw [hstep]
        rcases ih with ⟨hsuf, hmin, hstop, _⟩
        refine ⟨hsuf.trans (List.suffix_cons m rest), ?_, hstop, ?_⟩
        · have hlen : 2 ≤ rest.length := by
            have := hcond.1
            simp at this
            omega
          calc min 2 (m :: rest).length ≤ 2 := min_le_left _ _
            _ = min 2 rest.length := by omega
            _ ≤ _ := hmin
        · intro hb
          exact absurd hb (Nat.not_le.mpr hcond.2)
      · have hstep : truncateAux systemTokens budget (m :: rest)
            (estimateMessagesTokens (m :: rest)) = m :: rest := by
          rw [truncateAux, if_neg hcond]
        rw [hstep]
        refine ⟨List.suffix_refl _, min_le_right _ _, ?_, fun _ => rfl⟩
        rcases Decidable.not_and_iff_or_not.mp hcond with h | h
        · exact Or.inl (by simpa using Nat.not_lt.mp (by simpa using h))
        · exact Or.inr (Nat.not_lt.mp h)

/-- Counterexample for C8: A reconstructed context can exceed the budget
even though only the two most recent messages remain, in which case nothing
is dropped and the estimate stays above the budget — so the claim that
messages are dropped until the estimate is under budget fails as stated. -/
theorem truncateHistory_stuck_over_budget :
    maxHistoryTokens <
      9000 + estimateMessagesTokens [⟨"user", "hi"⟩, ⟨"user", "yo"⟩] ∧
    truncateHistory 9000 maxHistoryTokens
        [⟨"user", "hi"⟩, ⟨"user", "yo"⟩] =
      [⟨"user", "hi"⟩, ⟨"user", "yo"⟩] ∧
    maxHistoryTokens <
      9000 + estimateMessagesTokens
        (truncateHistory 9000 maxHistoryTokens
          [⟨"user", "hi"⟩, ⟨"user", "yo"⟩]) := by
  refine ⟨by decide, ?_, by decide⟩
  decide

/-- Claim C8, amended: The token-budget enforcement drops messages one at a
time from the oldest end until the estimate no longer exceeds the budget
*or only the two most recent messages remain*: the result is a suffix of
the input, at least the two most recent messages survive, the final
(most recent, user) message is always kept, and a context already within
budget is left unchanged. -/
theorem truncateHistory_spec (systemTokens budget : Nat)
    (messages : List ChatMessage) :
    truncateHistory systemTokens budget messages <:+ messages ∧
    min 2 messages.length ≤
      (truncateHistory systemTokens budget messages).length ∧
    ((truncateHistory systemTokens budget messages).length ≤ 2 ∨
      systemTokens + estimateMessagesTokens
        (truncateHistory systemTokens budget messages) ≤ budget) ∧
    (systemTokens + estimateMessagesTokens messages ≤ budget →
      truncateHistory systemTokens budget messages = messages) ∧
    (¬ messages = [] →
      (truncateHistory systemTokens budget messages).getLast? =
        messages.getLast?) := by
  have h := truncateAux_spec systemTokens budget messages
  refine ⟨h.1, h.2.1, h.2.2.1, h.2.2.2, ?_⟩
  intro hne
  set r := truncateAux systemTokens budget messages
    (estimateMessagesTokens messages) with hr
  rcases h.1 with ⟨pre, hpre⟩
  have hres : ¬ r = [] := by
    intro hnil
    have hlen := h.2.1
    rw [hnil] at hlen
    have hmlen : 0 < messages.length := List.length_pos.mpr hne
    simp only [List.length_nil] at hlen
    omega
  show r.getLast? = messages.getLast?
  rw [← hpre, List.getLast?_append_of_ne_nil pre hres]

/-- Witness for C8 (amended): a one-message context within budget is left
unchanged and its final user message kept. -/
theorem truncateHistory_spec_witness :
    truncateHistory 0 maxHistoryTokens [⟨"user", "hi"⟩] =
      [⟨"user", "hi"⟩] ∧
    (truncateHistory 0 maxHistoryTokens [⟨"user", "hi"⟩]).getLast? =
      some ⟨"user", "hi"⟩ := by
  have h := truncateHistory_spec 0 maxHistoryTokens [⟨"user", "hi"⟩]
  refine ⟨h.2.2.2.1 (by decide), ?_⟩
  rw [h.2.2.2.2 (by decide)]
  rfl

/- ─────────── Session management (src/unnamed/part_000, src/db.ts) ────────── -/

/-- A row of the `sessions` table. -/
structure Session where
  id : String
  userId : String
  channel : String
  groupId : Option String
  createdAt : Nat
  lastActiveAt : Nat
  model : String
  systemPrompt : Option String
deriving Repr, DecidableEq

/-- `getSessionByUser` (src/db.ts lines 140–146): the direct-message
session (`group_id IS NULL`) for this user and channel with the greatest
last-active time, if any. -/
def getSessionByUser (sessions : List Session) (userId channel : String) :
    Option Session :=
  (sessions.filter (fun s =>
      s.userId = userId ∧ s.channel = channel ∧ s.groupId = none)).foldl
    (fun best s =>
      match best with
      | none => some s
      | some b => if b.lastActiveAt < s.lastActiveAt then some s else some b)
    none

/-- `upsertSession` (src/db.ts lines 114–132): insert, or on an id conflict
update the last-active time, model and system prompt. -/
def upsertSession (sessions : List Session) (s : Session) : List Session :=
  if sessions.any (fun t => t.id = s.id) then
    sessions.map (fun t =>
      if t.id = s.id then
        { t with lastActiveAt := s.lastActiveAt, model := s.model,
                 systemPrompt := s.systemPrompt }
      else t)
  else
    sessions ++ [s]

/-- `getOrCreateSession` (src/unnamed/part_000 lines 49–70): reuse the
existing DM session when one exists and the message has no group id;
otherwise create and persist a brand-new session.  The fresh nanoid and
clock value are explicit parameters. -/
def getOrCreateSession (sessions : List Session) (userId channel : String)
    (groupId : Option String) (newId : String) (now : Nat)
    (defaultModel : String) : Session × List Session :=
  match getSessionByUser sessions userId channel, groupId with
  | some s, none => (s, sessions)
  | _, _ =>
      let s : Session :=
        ⟨newId, userId, channel, groupId, now, now, defaultModel, none⟩
      (s, upsertSession sessions s)

/-- Failing input for C9: Two consecutive group messages for the same
(user, group, channel) key: the second `getOrCreateSession` call creates
and persists a brand-new session even though a session for that key already
exists, so the store ends up holding two sessions for one group key —
contradicting the one-session-per-(group, channel) lifecycle (and the
source's own comment that group messages use group+user as the session
key).  The DM part of the lifecycle does hold: the third conjunct shows a
second DM message reusing the existing DM session. -/
theorem groupSession_not_reused :
    (getOrCreateSession
        ((getOrCreateSession [] "u" "telegram" (some "g1") "id1" 100
          "claude").2)
        "u" "telegram" (some "g1") "id2" 200 "claude").1.id = "id2" ∧
    ((getOrCreateSession
        ((getOrCreateSession [] "u" "telegram" (some "g1") "id1" 100
          "claude").2)
        "u" "telegram" (some "g1") "id2" 200 "claude").2).length = 2 ∧
    (getOrCreateSession
        ((getOrCreateSession [] "u" "telegram" none "id1" 100 "claude").2)
        "u" "telegram" none "id2" 200 "claude").1.id = "id1" := by
  decide

/- ──────────────────── SwarmOrchestrator (src/orchestrator.ts) ────────────── -/

/-- The fields of a `SwarmAgent` the result collection and synthesis read. -/
structure SwarmAgent where
  role : String
  systemPrompt : String
deriving Repr, DecidableEq

/-- Outcome of one agent's `Promise.race` against the 60-second timeout, as
seen by `Promise.allSettled`: fulfilled with the agent's text, or rejected
with an error message (the timeout rejection carries
`"Agent timeout"`). -/
inductive AgentOutcome where
  | fulfilled (value : String)
  | rejected (message : String)
deriving Repr, DecidableEq

/-- The per-agent result text recorded in step 3 of `SwarmOrchestrator.run`
(src/orchestrator.ts lines 57–73). -/
def outcomeText : AgentOutcome → String
  | .fulfilled v => v
  | .rejected m =>
      if m = "Agent timeout" then "Agent timed out after 60 seconds"
      else "Error: " ++ m

/-- JavaScript object property assignment on a string-keyed record:
overwrite in place when the key exists, else append (insertion order is
preserved). -/
def recordSet (results : List (String × String)) (k v : String) :
    List (String × String) :=
  if results.any (fun p => p.1 = k) then
    results.map (fun p => if p.1 = k then (k, v) else p)
  else
    results ++ [(k, v)]

/-- The `agentResults` record built by `SwarmOrchestrator.run` step 3:
for each index, the agent's role is assigned its outcome's text. -/
def collectResults (agents : List SwarmAgent)
    (outcomes : List AgentOutcome) : List (String × String) :=
  (agents.zip outcomes).foldl
    (fun acc q => recordSet acc q.1.role (outcomeText q.2)) []

/-- `text.toUpperCase()` on the role names (ASCII). -/
def stringUpper (s : String) : String :=
  String.mk (s.data.map Char.toUpper)

/-- The role-labeled sections of the synthesis input
(src/orchestrator.ts lines 166–168). -/
def resultsSummaryParts (results : List (String × String)) : List String :=
  results.map (fun p => "## " ++ stringUpper p.1 ++ "\n" ++ p.2)

/-- `resultsSummary`: the labeled sections joined by horizontal rules. -/
def resultsSummary (results : List (String × String)) : String :=
  String.intercalate "\n\n---\n\n" (resultsSummaryParts results)

/-- Counterexample for C7: Two roster agents may share a role (e.g. two
custom agents that both default to `"general"`); the `agentResults` record
then keeps only the later agent's outcome, so the synthesis input silently
drops the earlier agent's outcome — here a timed-out agent 1 leaves no
error-labeled trace at all, refuting the claim that the synthesis input
holds a result for every agent in the roster. -/
theorem swarm_duplicate_role_drops_outcome :
    collectResults [⟨"general", "p1"⟩, ⟨"general", "p2"⟩]
        [AgentOutcome.rejected "Agent timeout", AgentOutcome.fulfilled "A"] =
      [("general", "A")] ∧
    (∀ p ∈ collectResults [⟨"general", "p1"⟩, ⟨"general", "p2"⟩]
        [AgentOutcome.rejected "Agent timeout", AgentOutcome.fulfilled "A"],
      ¬ p.2 = "Agent timed out after 60 seconds") := by
  decide

theorem recordSet_fresh (acc : List (String × String)) (k v : String)
    (h : ∀ p ∈ acc, ¬ p.1 = k) :
    recordSet acc k v = acc ++ [(k, v)] := by
  unfold recordSet
  have : acc.any (fun p => p.1 = k) = false := by
    rw [List.any_eq_false]
    intro p hp
    simpa using h p hp
  simp [this]

theorem foldl_recordSet_fresh (l : List (SwarmAgent × AgentOutcome)) :
    ∀ acc : List (String × String),
    (l.map (fun q => q.1.role)).Nodup →
    (∀ p ∈ acc, ¬ p.1 ∈ l.map (fun q => q.1.role)) →
    l.foldl (fun acc q => recordSet acc q.1.role (outcomeText q.2)) acc =
      acc ++ l.map (fun q => (q.1.role, outcomeText q.2)) := by
  induction l with
  | nil => intro acc _ _; simp
  | cons q l ih =>
      intro acc hnd hdisj
      have hfresh : ∀ p ∈ acc, ¬ p.1 = q.1.role := by
        intro p hp he
        exact hdisj p hp (by simp [he])
      rw [List.foldl_cons, recordSet_fresh acc q.1.role (outcomeText q.2)
        hfresh]
      have hnd' : (l.map (fun q => q.1.role)).Nodup := by
        simpa using hnd.of_cons
      have hhead : ¬ q.1.role ∈ l.map (fun q => q.1.role) := by
        have := hnd
        simp only [List.map_cons, List.nodup_cons] at this
        exact this.1
      have hdisj' : ∀ p ∈ acc ++ [(q.1.role, outcomeText q.2)],
          ¬ p.1 ∈ l.map (fun q => q.1.role) := by
        intro p hp
        rcases List.mem_append.mp hp with hp | hp
        · intro hmem
          exact hdisj p hp (by simp [hmem])
        · simp at hp
          rw [hp]
          exact hhead
      rw [ih (acc ++ [(q.1.role, outcomeText q.2)]) hnd' hdisj']
      simp

/-- With distinct roles and one outcome per agent, the results record is
exactly the roster order zipped with the outcome texts. -/
theorem collectResults_eq_zip (agents : List SwarmAgent)
    (outcomes : List AgentOutcome)
    (hlen : agents.length ≤ outcomes.length)
    (hnodup : (agents.map (fun a => a.role)).Nodup) :
    collectResults agents outcomes =
      (agents.zip outcomes).map (fun q => (q.1.role, outcomeText q.2)) := by
  unfold collectResults
  have hfst : (agents.zip outcomes).map Prod.fst = agents :=
    List.map_fst_zip agents outcomes hlen
  have hsub : (agents.zip outcomes).map (fun q => q.1.role) |>.Nodup := by
    have : (agents.zip outcomes).map (fun q => q.1.role) =
        agents.map (fun a => a.role) := by
      rw [show (fun q : SwarmAgent × AgentOutcome => q.1.role) =
        (fun a : SwarmAgent => a.role) ∘ Prod.fst from rfl,
        ← List.map_map, hfst]
    rw [this]
    exact hnodup
  rw [foldl_recordSet_fresh (agents.zip outcomes) [] hsub (by simp)]
  simp

/-- Claim C7, amended: For a swarm whose roster has pairwise-distinct roles
(as produced by the decomposition prompt), every agent contributes exactly
one role-labeled entry to the synthesis input: a fulfilled agent its result
text, the timeout rejection the timed-out text, and any other rejection an
error text; the results record has one entry per agent, and each labeled
section appears among the synthesis summary parts.  (With duplicate roles
the later agent's outcome overwrites the earlier one's — see the
counterexample.) -/
theorem swarm_synthesis_spec (agents : List SwarmAgent)
    (outcomes : List AgentOutcome)
    (hlen : outcomes.length = agents.length)
    (hnodup : (agents.map (fun a => a.role)).Nodup) :
    (∀ i, (hi : i < agents.length) → (hio : i < outcomes.length) →
      ((agents.get ⟨i, hi⟩).role, outcomeText (outcomes.get ⟨i, hio⟩)) ∈
          collectResults agents outcomes ∧
      ("## " ++ stringUpper (agents.get ⟨i, hi⟩).role ++ "\n" ++
          outcomeText (outcomes.get ⟨i, hio⟩)) ∈
        resultsSummaryParts (collectResults agents outcomes)) ∧
    (collectResults agents outcomes).length = agents.length ∧
    (∀ s, outcomeText (AgentOutcome.fulfilled s) = s) ∧
    outcomeText (AgentOutcome.rejected "Agent timeout") =
      "Agent timed out after 60 seconds" ∧
    (∀ m, ¬ m = "Agent timeout" →
      outcomeText (AgentOutcome.rejected m) = "Error: " ++ m) := by
  have hez := collectResults_eq_zip agents outcomes (by omega) hnodup
  refine ⟨?_, ?_, ?_, by decide, ?_⟩
  · intro i hi hio
    have hz : i < (agents.zip outcomes).length := by
      rw [List.length_zip]
      omega
    have hget : (agents.zip outcomes).get ⟨i, hz⟩ =
        (agents.get ⟨i, hi⟩, outcomes.get ⟨i, hio⟩) := by
      simp only [List.get_eq_getElem]
      exact List.getElem_zip
    have hmem : ((agents.get ⟨i, hi⟩).role,
        outcomeText (outcomes.get ⟨i, hio⟩)) ∈
        collectResults agents outcomes := by
      rw [hez]
      refine List.mem_map.mpr ⟨(agents.zip outcomes).get ⟨i, hz⟩, ?_, ?_⟩
      · exact List.get_mem _ _ _
      · rw [hget]
    exact ⟨hmem, List.mem_map.mpr ⟨_, hmem, rfl⟩⟩
  · rw [hez, List.length_map, List.length_zip]
    omega
  · intro s
    rfl
  · intro m hm
    simp [outcomeText, hm]

/-- Witness for C7 (amended): three agents where agent 2 times out; the
synthesis input holds the results of agents 1 and 3 plus the error-labeled
result of agent 2, one entry per agent. -/
theorem swarm_synthesis_spec_witness :
    ((([⟨"researcher", "p1"⟩, ⟨"analyst", "p2"⟩, ⟨"writer", "p3"⟩] :
          List SwarmAgent).get ⟨1, by decide⟩).role,
      outcomeText (([AgentOutcome.fulfilled "facts",
          AgentOutcome.rejected "Agent timeout",
          AgentOutcome.fulfilled "draft"] : List AgentOutcome).get
        ⟨1, by decide⟩)) ∈
      collectResults
        [⟨"researcher", "p1"⟩, ⟨"analyst", "p2"⟩, ⟨"writer", "p3"⟩]
        [AgentOutcome.fulfilled "facts",
         AgentOutcome.rejected "Agent timeout",
         AgentOutcome.fulfilled "draft"] ∧
    (collectResults
        [⟨"researcher", "p1"⟩, ⟨"analyst", "p2"⟩, ⟨"writer", "p3"⟩]
        [AgentOutcome.fulfilled "facts",
         AgentOutcome.rejected "Agent timeout",
         AgentOutcome.fulfilled "draft"]).length = 3 ∧
    outcomeText (AgentOutcome.rejected "Agent timeout") =
      "Agent timed out after 60 seconds" := by
  have h := swarm_synthesis_spec
    [⟨"researcher", "p1"⟩, ⟨"analyst", "p2"⟩, ⟨"writer", "p3"⟩]
    [AgentOutcome.fulfilled "facts",
     AgentOutcome.rejected "Agent timeout",
     AgentOutcome.fulfilled "draft"]
    (by decide) (by decide)
  exact ⟨(h.1 1 (by decide) (by decide)).1, h.2.1, h.2.2.2.1⟩

end EvaBot
